import Mathlib

/-!
Shallow embedding of `src/PUNCHCARD.c` (the PUNCHCARD work-hours utility).

Machine `int` values are modelled as `Int` (no arithmetic here approaches
32-bit overflow: hours, minutes and their totals stay small). C's truncating
division `/` appears only in `roundTime`, whose dividend `minutes + 7` is
non-negative at every call site, where truncating division agrees with Lean's
`Int` division, so Lean's `/` is used directly.

The character-level input stream is modelled as `List Char`, with end-of-input
represented by the empty list (`getchar` returning `EOF`). The `scanf_s`
calls of `readTime` are abstracted: a `ClockTime` record holds the three
values `scanf_s` stored (`%d`, `%d`, `%c`), and a day's input line is a list
of `Entry` records, one per `start-end` pair, each carrying the classification
of the `clearBufferJunk(',')` scan that follows the pair (`SepKind`). The
ignored `clearBufferJunk('-')` call between the two times of a pair consumes
separator characters only and is absorbed into this abstraction. When the
stream is exhausted while `readTimesForDay` still wants another pair,
`scanf_s` assigns nothing and the C code goes on to read indeterminate
(uninitialized) variables; that situation is not modelled and is returned as
`none`.
-/

/-- One scanned 12-hour time: the three values `scanf_s(" %d : %d %c", ...)`
stored into `hour`, `minute` and `meridiem` in `readTime`. -/
@[ext]
structure ClockTime where
  hour : Int
  minute : Int
  meridiem : Char
  deriving DecidableEq, Repr

/-- The validation diagnostics `readTime` can print on failure. -/
inductive TimeError where
  | hourTooSmall
  | hourTooBig
  | minuteTooSmall
  | minuteTooBig
  | unrecognizedMeridiem
  deriving DecidableEq, Repr

/-- Uppercase-meridiem normalization done at the top of `readTime`
(`if (*meridiem == 'A') *meridiem = 'a'; else if (*meridiem == 'P') ...`). -/
def normalizeMeridiem (m : Char) : Char :=
  if m = 'A' then 'a' else if m = 'P' then 'p' else m

/-- The scanned time after `readTime` wrote the normalized meridiem back
through its pointer; later code (the sentinel comparison, `toMilitaryTime`)
sees this normalized value. -/
def normTime (t : ClockTime) : ClockTime :=
  { t with meridiem := normalizeMeridiem t.meridiem }

/-- `readTime` from `PUNCHCARD.c` lines 83-123: returns the C result code
(`0` valid, `-1` invalid) together with the list of diagnostics printed, in
program order. On the valid branch the C code prints nothing and none of the
error conditions hold. -/
def readTime (t : ClockTime) : Int × List TimeError :=
  let m := normalizeMeridiem t.meridiem
  if t.hour > 0 ∧ t.hour < 13 ∧ t.minute > -1 ∧ t.minute < 60 ∧ (m = 'a' ∨ m = 'p') then
    (0, [])
  else
    (-1,
      (if t.hour ≤ 0 then [TimeError.hourTooSmall] else []) ++
      (if t.hour ≥ 13 then [TimeError.hourTooBig] else []) ++
      (if t.minute ≤ -1 then [TimeError.minuteTooSmall] else []) ++
      (if t.minute ≥ 60 then [TimeError.minuteTooBig] else []) ++
      (if m ≠ 'a' ∧ m ≠ 'p' then [TimeError.unrecognizedMeridiem] else []))

/-- `toMilitaryTime` from `PUNCHCARD.c` lines 133-147: the hour after the
12-to-24-hour conversion (note the source maps 12 AM to hour 24, per its own
comment "add 12 so 12am = 24:00/00:00"). -/
def toMilitaryTime (hour : Int) (meridiem : Char) : Int :=
  if hour = 12 then
    if meridiem = 'a' then hour + 12 else hour
  else
    if meridiem = 'p' then hour + 12 else hour

/-- Minutes-since-midnight of the code's military representation: the linear
value a time denotes after `toMilitaryTime`, namely `militaryHour * 60 +
minute`. This is the code-derived counterpart of the spec's `toLinear`. -/
def toLinear (t : ClockTime) : Int :=
  toMilitaryTime t.hour t.meridiem * 60 + t.minute

/-- The per-pair duration computation of `readTimesForDay`, lines 267-286:
convert both times with `toMilitaryTime`, subtract hours and minutes, borrow
60 minutes if the minute difference is negative, add 24 hours if the hour
difference is negative. Takes the (already normalized) start and end times. -/
def elapsed (s e : ClockTime) : Int × Int :=
  let startHour := toMilitaryTime s.hour s.meridiem
  let endHour := toMilitaryTime e.hour e.meridiem
  let hd0 := endHour - startHour
  let md0 := e.minute - s.minute
  let hd1 := if md0 < 0 then hd0 - 1 else hd0
  let md1 := if md0 < 0 then md0 + 60 else md0
  let hd2 := if hd1 < 0 then hd1 + 24 else hd1
  (hd2, md1)

/-- `roundTime` from `PUNCHCARD.c` lines 157-166: round the minutes to a
multiple of 15 via `((m + 7) / 15) * 15`, and carry into the hours when the
rounded value is exactly 60. -/
def roundTime (hourDifference minuteDifference : Int) : Int × Int :=
  let rounded := (minuteDifference + 7) / 15 * 15
  if rounded = 60 then (hourDifference + 1, 0) else (hourDifference, rounded)

/-- Classification of the `clearBufferJunk(',')` scan that follows a pair
inside `readTimesForDay`: the scan stopped at the target comma (`0`, loop
continues), at a newline (`1`, day done), or at end-of-input (`-1`, day
done). -/
inductive SepKind where
  | comma
  | line
  | ended
  deriving DecidableEq, Repr

/-- One `start-end` pair of a day line as scanned from the stream: the two
`scanf_s` results and the classified separator scan that follows the pair. -/
structure Entry where
  startT : ClockTime
  endT : ClockTime
  sep : SepKind
  deriving DecidableEq, Repr

/-- The accumulation step of `readTimesForDay`, lines 288-296:
`*totalMinutes += minuteDifference; *totalHours += hourDifference;` then a
single 60-minute carry. -/
def accumulate (totalHours totalMinutes hourDifference minuteDifference : Int) : Int × Int :=
  let tm := totalMinutes + minuteDifference
  let th := totalHours + hourDifference
  if tm ≥ 60 then (th + 1, tm - 60) else (th, tm)

/-- Accumulation of one entry's duration into the running day totals, exactly
as the body of `readTimesForDay` performs it on a successfully parsed,
non-sentinel pair. -/
def accumPair (acc : Int × Int) (e : Entry) : Int × Int :=
  let d := elapsed (normTime e.startT) (normTime e.endT)
  accumulate acc.1 acc.2 d.1 d.2

/-- Day totals after accumulating a list of pairs starting from the fresh
`totalHours = 0, totalMinutes = 0` of `main`. -/
def accumPairs (es : List Entry) : Int × Int :=
  es.foldl accumPair (0, 0)

/-- Total duration, in minutes, of a list of pairs (the mathematical sum the
accumulator is meant to track). -/
def sumDurations : List Entry → Int
  | [] => 0
  | e :: rest =>
    (60 * (elapsed (normTime e.startT) (normTime e.endT)).1 +
      (elapsed (normTime e.startT) (normTime e.endT)).2) + sumDurations rest

/-- `readTimesForDay` from `PUNCHCARD.c` lines 182-306 over one day line,
given the running totals. Result `some (r, totalHours, totalMinutes)` mirrors
the C return value `r` (`1` all pairs read, `0` sentinel stop, `-1` abort)
together with the totals left in `main`'s variables. `none` marks the
unmodelled situation where the loop asks for another pair but the stream is
already exhausted (the C code would then validate variables `scanf_s` never
assigned). On abort the C code calls `clearBufferJunk('\n')`, discarding the
remaining entries of the line, so they are simply dropped here. -/
def readTimesForDay : List Entry → Int → Int → Option (Int × Int × Int)
  | [], _, _ => none
  | e :: rest, totalHours, totalMinutes =>
    if (readTime e.startT).1 = -1 then some (-1, totalHours, totalMinutes)
    else if (readTime e.endT).1 = -1 then some (-1, totalHours, totalMinutes)
    else
      let s := normTime e.startT
      let en := normTime e.endT
      if s.hour = en.hour ∧ s.minute = en.minute ∧ s.meridiem = en.meridiem then
        some (0, totalHours, totalMinutes)
      else
        let d := elapsed s en
        let acc := accumulate totalHours totalMinutes d.1 d.2
        match e.sep with
        | SepKind.comma => readTimesForDay rest acc.1 acc.2
        | SepKind.line => some (1, acc.1, acc.2)
        | SepKind.ended => some (1, acc.1, acc.2)

/-- The driver loop of `main`, lines 330-374, over the stream pre-split into
day lines. Each iteration re-initializes `totalHours = 0, totalMinutes = 0`
and calls `readTimesForDay`. On `-1` it skips finalization and retries; on
`0` it finalizes the day's totals and the program returns status `0`;
otherwise it finalizes and loops. The result is `some (status, finalized day
totals in order)` when the program reaches `return 0`, and `none` when the
stream runs out with the loop still running (the C program then keeps
prompting an exhausted stream; it never reaches `return 0`). -/
def mainLoop : List (List Entry) → Option (Int × List (Int × Int))
  | [] => none
  | day :: rest =>
    match readTimesForDay day 0 0 with
    | none => none
    | some (r, th, tm) =>
      if r = -1 then mainLoop rest
      else if r = 0 then some (0, [(th, tm)])
      else
        match mainLoop rest with
        | none => none
        | some (st, outs) => some (st, (th, tm) :: outs)

/-- `clearBufferJunk` from `PUNCHCARD.c` lines 48-68 on an explicit stream:
consume characters until the target, a newline, or end-of-input, then return
the C result code (`-1` end-of-input, `0` target found with target not a
newline, `1` newline, `2` the fallback branch) and the rest of the stream. -/
def clearBufferJunk (target : Char) : List Char → Int × List Char
  | [] => (-1, [])
  | c :: rest =>
    if c ≠ target ∧ c ≠ '\n' then clearBufferJunk target rest
    else if c = target ∧ target ≠ '\n' then (0, rest)
    else if c = '\n' then (1, rest)
    else (2, rest)

/-- Validity of a scanned time: the success condition of `readTime`. -/
def validScan (t : ClockTime) : Prop := (readTime t).1 = 0

/-- The `ClockTime` invariant of the spec: hour 1-12, minute 0-59, meridiem
a lowercase `'a'` or `'p'`. -/
def validTime (t : ClockTime) : Prop :=
  1 ≤ t.hour ∧ t.hour ≤ 12 ∧ 0 ≤ t.minute ∧ t.minute ≤ 59 ∧
    (t.meridiem = 'a' ∨ t.meridiem = 'p')

/-- The sentinel condition of `readTimesForDay` lines 259-265: start and end
identical in hour, minute and (normalized) meridiem, checked on the 12-hour
values before `toMilitaryTime` runs. -/
def isSentinel (e : Entry) : Prop :=
  (normTime e.startT).hour = (normTime e.endT).hour ∧
  (normTime e.startT).minute = (normTime e.endT).minute ∧
  (normTime e.startT).meridiem = (normTime e.endT).meridiem

/-- A pair the day loop processes and moves past: both scans valid, not the
sentinel, and the following separator scan found a comma. -/
def goodPair (e : Entry) : Prop :=
  validScan e.startT ∧ validScan e.endT ∧ ¬ isSentinel e ∧ e.sep = SepKind.comma

/-- Modelled from the spec: the `toLinear` of spec section 4.2 (TimeConverter),
"if hour==12, result base = 0 minutes if AM else 720 minutes; otherwise base =
hour×60, +720 if PM. Add minute." Stated here only to compare the code-derived
`toLinear` against the spec's words. -/
def specLinear (t : ClockTime) : Int :=
  if t.hour = 12 then (if t.meridiem = 'a' then 0 else 720) + t.minute
  else t.hour * 60 + t.minute + (if t.meridiem = 'p' then 720 else 0)

instance (t : ClockTime) : Decidable (validScan t) := by
  unfold validScan; infer_instance

instance (t : ClockTime) : Decidable (validTime t) := by
  unfold validTime; infer_instance

instance (e : Entry) : Decidable (isSentinel e) := by
  unfold isSentinel; infer_instance

instance (e : Entry) : Decidable (goodPair e) := by
  unfold goodPair; infer_instance

lemma toMilitaryTime_bounds (t : ClockTime) (h : validTime t) :
    1 ≤ toMilitaryTime t.hour t.meridiem ∧ toMilitaryTime t.hour t.meridiem ≤ 24 := by
  obtain ⟨h1, h2, _, _, hm⟩ := h
  rcases hm with hm | hm <;>
    simp only [toMilitaryTime, hm] <;> split_ifs <;> omega

lemma toLinear_bounds (t : ClockTime) (h : validTime t) :
    60 ≤ toLinear t ∧ toLinear t ≤ 1499 := by
  obtain ⟨hb1, hb2⟩ := toMilitaryTime_bounds t h
  obtain ⟨_, _, h3, h4, _⟩ := h
  unfold toLinear
  omega

lemma elapsed_eq (s e : ClockTime) (hs : validTime s) (he : validTime e) :
    60 * (elapsed s e).1 + (elapsed s e).2 = (toLinear e - toLinear s) % 1440 ∧
    0 ≤ (elapsed s e).1 ∧ (elapsed s e).1 ≤ 23 ∧
    0 ≤ (elapsed s e).2 ∧ (elapsed s e).2 ≤ 59 := by
  obtain ⟨hA1, hA2⟩ := toMilitaryTime_bounds s hs
  obtain ⟨hB1, hB2⟩ := toMilitaryTime_bounds e he
  obtain ⟨_, _, hs3, hs4, _⟩ := hs
  obtain ⟨_, _, he3, he4, _⟩ := he
  simp only [elapsed, toLinear]
  split_ifs <;> omega

/-- C1: for every pair of valid start and end times, the duration computed by
`readTimesForDay` equals `(end - start) mod 1440` minutes decomposed into
hours and minutes — the plain difference when non-negative, the difference
plus 1440 (wraparound into the next day) otherwise — and the single-pair
result has hours in [0,23] and minutes in [0,59]; in particular
`elapsed 11:59pm 12:01am = (0 hours, 2 minutes)`. -/
theorem claim1_elapsed_wraparound (s e : ClockTime) (hs : validTime s) (he : validTime e) :
    ((elapsed s e).1 = (toLinear e - toLinear s) % 1440 / 60 ∧
      (elapsed s e).2 = (toLinear e - toLinear s) % 1440 % 60) ∧
    (0 ≤ toLinear e - toLinear s →
      60 * (elapsed s e).1 + (elapsed s e).2 = toLinear e - toLinear s) ∧
    (toLinear e - toLinear s < 0 →
      60 * (elapsed s e).1 + (elapsed s e).2 = toLinear e - toLinear s + 1440) ∧
    (0 ≤ (elapsed s e).1 ∧ (elapsed s e).1 ≤ 23 ∧
      0 ≤ (elapsed s e).2 ∧ (elapsed s e).2 ≤ 59) ∧
    elapsed ⟨11, 59, 'p'⟩ ⟨12, 1, 'a'⟩ = (0, 2) := by
  obtain ⟨hmod, i1, i2, i3, i4⟩ := elapsed_eq s e hs he
  obtain ⟨ls1, ls2⟩ := toLinear_bounds s hs
  obtain ⟨le1, le2⟩ := toLinear_bounds e he
  refine ⟨⟨by omega, by omega⟩, by omega, by omega, ⟨i1, i2, i3, i4⟩, by decide⟩

/-- Witness for C1 at the pair 9:00am-5:00pm. -/
theorem claim1_elapsed_wraparound_witness :
    validTime ⟨9, 0, 'a'⟩ ∧ validTime ⟨5, 0, 'p'⟩ ∧
    (elapsed ⟨9, 0, 'a'⟩ ⟨5, 0, 'p'⟩).1 =
      (toLinear ⟨5, 0, 'p'⟩ - toLinear ⟨9, 0, 'a'⟩) % 1440 / 60 :=
  ⟨by decide, by decide,
    ((claim1_elapsed_wraparound ⟨9, 0, 'a'⟩ ⟨5, 0, 'p'⟩ (by decide) (by decide)).1).1⟩

/-- C2: for minutes in [0,59], `roundTime` replaces the minutes by
`((minutes + 7) / 15) * 15`, giving the band table 0-7→0, 8-22→15, 23-37→30,
38-52→45, 53-59→60; exactly when the rounded value is 60 (i.e. minutes ≥ 53)
the minutes reset to 0 and the hours increment by 1, and the hours are
unchanged in every other case. -/
theorem claim2_roundTime_bands (h m : Int) (hm0 : 0 ≤ m) (hm1 : m ≤ 59) :
    ((m + 7) / 15 * 15 = 60 →
      (roundTime h m).1 = h + 1 ∧ (roundTime h m).2 = 0) ∧
    ((m + 7) / 15 * 15 ≠ 60 →
      (roundTime h m).1 = h ∧ (roundTime h m).2 = (m + 7) / 15 * 15) ∧
    ((m + 7) / 15 * 15 = 60 ↔ 53 ≤ m) ∧
    (m ≤ 7 → (roundTime h m).1 = h ∧ (roundTime h m).2 = 0) ∧
    (8 ≤ m → m ≤ 22 → (roundTime h m).1 = h ∧ (roundTime h m).2 = 15) ∧
    (23 ≤ m → m ≤ 37 → (roundTime h m).1 = h ∧ (roundTime h m).2 = 30) ∧
    (38 ≤ m → m ≤ 52 → (roundTime h m).1 = h ∧ (roundTime h m).2 = 45) ∧
    (53 ≤ m → (roundTime h m).1 = h + 1 ∧ (roundTime h m).2 = 0) := by
  simp only [roundTime]
  split_ifs with hr <;> dsimp only <;> omega

/-- Witness for C2 at hours 0, minutes 53 (the carry boundary). -/
theorem claim2_roundTime_bands_witness :
    0 ≤ (53 : Int) ∧ (53 : Int) ≤ 59 ∧ (((53 : Int) + 7) / 15 * 15 = 60 ↔ 53 ≤ (53 : Int)) :=
  ⟨by decide, by decide, (claim2_roundTime_bands 0 53 (by decide) (by decide)).2.2.1⟩

/-- C3 counterexample: the code's conversion sends 12:00 AM to military hour
24 ("add 12 so 12am = 24:00/00:00"), so its linear minutes value is 1440 —
not 0 as the claim states — and it lies outside [0,1439]. -/
theorem claim3_midnight_counterexample :
    toLinear ⟨12, 0, 'a'⟩ = 1440 ∧ toLinear ⟨12, 0, 'a'⟩ ≠ 0 ∧
      ¬ toLinear ⟨12, 0, 'a'⟩ ≤ 1439 := by decide

/-- C3 amended: for every valid ClockTime the code-derived linear value lies
in [60,1499]: 12:MM AM maps to 1440 + MM (midnight represented as hour 24,
equal to MM only modulo 1440), 12:MM PM maps to 720 + MM, and any other hour
maps to hour*60 + minute, plus 720 if PM; reduced modulo 1440 it agrees
everywhere with the spec's [0,1439] mapping. -/
theorem claim3_amended_toLinear (t : ClockTime) (h : validTime t) :
    toLinear t % 1440 = specLinear t ∧
    0 ≤ specLinear t ∧ specLinear t ≤ 1439 ∧
    60 ≤ toLinear t ∧ toLinear t ≤ 1499 ∧
    (t.hour = 12 → t.meridiem = 'a' → toLinear t = 1440 + t.minute) ∧
    (t.hour = 12 → t.meridiem = 'p' → toLinear t = 720 + t.minute) ∧
    (t.hour ≠ 12 → t.meridiem = 'a' → toLinear t = t.hour * 60 + t.minute) ∧
    (t.hour ≠ 12 → t.meridiem = 'p' → toLinear t = t.hour * 60 + t.minute + 720) := by
  obtain ⟨p1, p2, p3, p4, p5⟩ := h
  rcases p5 with hc | hc <;>
    simp only [toLinear, toMilitaryTime, specLinear, hc] <;>
    split_ifs <;> simp_all <;> omega

/-- Witness for C3 amended at 12:00 AM. -/
theorem claim3_amended_toLinear_witness :
    validTime ⟨12, 0, 'a'⟩ ∧ toLinear ⟨12, 0, 'a'⟩ % 1440 = specLinear ⟨12, 0, 'a'⟩ :=
  ⟨by decide, (claim3_amended_toLinear ⟨12, 0, 'a'⟩ (by decide)).1⟩

/-- C9: the code-derived linear conversion is injective on valid ClockTimes —
distinct valid times (in hour, minute or meridiem) have distinct linear
values. -/
theorem claim9_toLinear_injective (t1 t2 : ClockTime) (h1 : validTime t1) (h2 : validTime t2)
    (heq : toLinear t1 = toLinear t2) : t1 = t2 := by
  obtain ⟨p1, p2, p3, p4, p5⟩ := h1
  obtain ⟨q1, q2, q3, q4, q5⟩ := h2
  have hmm : t1.minute = t2.minute ∧
      toMilitaryTime t1.hour t1.meridiem = toMilitaryTime t2.hour t2.meridiem := by
    unfold toLinear at heq
    constructor <;> omega
  obtain ⟨hminute, hmil⟩ := hmm
  have hfields : t1.hour = t2.hour ∧ t1.meridiem = t2.meridiem := by
    rcases p5 with hc1 | hc1 <;> rcases q5 with hc2 | hc2 <;>
      simp only [toMilitaryTime, hc1, hc2] at hmil <;>
      split_ifs at hmil <;>
      first
      | exact ⟨by omega, hc1.trans hc2.symm⟩
      | exact absurd hmil (by omega)
      | simp_all
  exact ClockTime.ext hfields.1 hminute hfields.2

/-- Witness for C9 at 9:30am compared with itself. -/
theorem claim9_toLinear_injective_witness :
    validTime ⟨9, 30, 'a'⟩ ∧ (⟨9, 30, 'a'⟩ : ClockTime) = ⟨9, 30, 'a'⟩ :=
  ⟨by decide, claim9_toLinear_injective ⟨9, 30, 'a'⟩ ⟨9, 30, 'a'⟩ (by decide) (by decide) rfl⟩

lemma mem_ite_singleton (x y : TimeError) (c : Prop) [Decidable c] :
    (x ∈ if c then [y] else []) ↔ c ∧ x = y := by
  split_ifs with h <;> simp [h]

/-- C6: `readTime` fails (returns -1) if and only if one of the constraints
hour ∈ [1,12], minute ∈ [0,59], normalized meridiem ∈ {a,p} is violated; on
failure every violated constraint is reported in one pass (HourTooSmall for
hour ≤ 0, HourTooBig for hour ≥ 13, MinuteTooSmall for minute ≤ -1,
MinuteTooBig for minute ≥ 60, UnrecognizedMeridiem when the meridiem
normalizes to neither 'a' nor 'p'), and on success nothing is reported. -/
theorem claim6_readTime_errors (t : ClockTime) :
    ((readTime t).1 = -1 ↔
      ¬ (1 ≤ t.hour ∧ t.hour ≤ 12 ∧ 0 ≤ t.minute ∧ t.minute ≤ 59 ∧
          (normalizeMeridiem t.meridiem = 'a' ∨ normalizeMeridiem t.meridiem = 'p'))) ∧
    ((readTime t).1 = 0 ∨ (readTime t).1 = -1) ∧
    (TimeError.hourTooSmall ∈ (readTime t).2 ↔ t.hour ≤ 0) ∧
    (TimeError.hourTooBig ∈ (readTime t).2 ↔ 13 ≤ t.hour) ∧
    (TimeError.minuteTooSmall ∈ (readTime t).2 ↔ t.minute ≤ -1) ∧
    (TimeError.minuteTooBig ∈ (readTime t).2 ↔ 60 ≤ t.minute) ∧
    (TimeError.unrecognizedMeridiem ∈ (readTime t).2 ↔
      ¬ (normalizeMeridiem t.meridiem = 'a' ∨ normalizeMeridiem t.meridiem = 'p')) ∧
    ((readTime t).1 = 0 → (readTime t).2 = []) := by
  by_cases hv : t.hour > 0 ∧ t.hour < 13 ∧ t.minute > -1 ∧ t.minute < 60 ∧
      (normalizeMeridiem t.meridiem = 'a' ∨ normalizeMeridiem t.meridiem = 'p')
  · obtain ⟨a1, a2, a3, a4, a5⟩ := hv
    have hrt : readTime t = (0, []) := by
      simp only [readTime, if_pos (⟨a1, a2, a3, a4, a5⟩ :
        t.hour > 0 ∧ t.hour < 13 ∧ t.minute > -1 ∧ t.minute < 60 ∧
          (normalizeMeridiem t.meridiem = 'a' ∨ normalizeMeridiem t.meridiem = 'p'))]
    rw [hrt]
    exact ⟨⟨fun h => absurd h (by decide),
        fun hn => absurd ⟨by omega, by omega, by omega, by omega, a5⟩ hn⟩,
      Or.inl rfl,
      ⟨fun h => absurd h (List.not_mem_nil _), fun h => absurd h (by omega)⟩,
      ⟨fun h => absurd h (List.not_mem_nil _), fun h => absurd h (by omega)⟩,
      ⟨fun h => absurd h (List.not_mem_nil _), fun h => absurd h (by omega)⟩,
      ⟨fun h => absurd h (List.not_mem_nil _), fun h => absurd h (by omega)⟩,
      ⟨fun h => absurd h (List.not_mem_nil _), fun h => (h a5).elim⟩,
      fun _ => rfl⟩
  · have hrt : readTime t = (-1,
        (if t.hour ≤ 0 then [TimeError.hourTooSmall] else []) ++
        (if t.hour ≥ 13 then [TimeError.hourTooBig] else []) ++
        (if t.minute ≤ -1 then [TimeError.minuteTooSmall] else []) ++
        (if t.minute ≥ 60 then [TimeError.minuteTooBig] else []) ++
        (if normalizeMeridiem t.meridiem ≠ 'a' ∧ normalizeMeridiem t.meridiem ≠ 'p'
          then [TimeError.unrecognizedMeridiem] else [])) := by
      simp only [readTime, if_neg hv]
    rw [hrt]
    refine ⟨⟨fun _ hc => hv ⟨by omega, by omega, by omega, by omega, hc.2.2.2.2⟩,
      fun _ => rfl⟩, Or.inr rfl, ?_, ?_, ?_, ?_, ?_, fun h => absurd h (by simp)⟩ <;>
      simp [mem_ite_singleton]

/-- C10: for every target character and every input stream, `clearBufferJunk`
stops with code -1 (end-of-input), 0 (target found) or 1 (newline) only — the
fallback branch returning 2 is unreachable — and when the target is the
newline character itself, a stop at a newline is classified as 1, never 0. -/
theorem claim10_clearBufferJunk_codes (target : Char) (s : List Char) :
    ((clearBufferJunk target s).1 = -1 ∨ (clearBufferJunk target s).1 = 0 ∨
      (clearBufferJunk target s).1 = 1) ∧
    (target = '\n' → (clearBufferJunk target s).1 ≠ 0) := by
  induction s with
  | nil => exact ⟨Or.inl rfl, fun _ => by simp [clearBufferJunk]⟩
  | cons c rest ih =>
    simp only [clearBufferJunk]
    split_ifs with h1 h2 h3
    · exact ih
    · exact ⟨Or.inr (Or.inl rfl), fun ht => absurd ht h2.2⟩
    · exact ⟨Or.inr (Or.inr rfl), fun _ => by simp⟩
    · exfalso
      rcases not_and_or.mp h1 with hA | hB
      · have hct : c = target := not_not.mp hA
        have hcn : target = '\n' := by
          rcases not_and_or.mp h2 with h | h
          · exact absurd hct h
          · exact not_not.mp h
        exact h3 (hct.trans hcn)
      · exact h3 (not_not.mp hB)

/-- Witness for C10 with the newline target on a concrete stream. -/
theorem claim10_clearBufferJunk_codes_witness :
    (clearBufferJunk '\n' ['a', '\n']).1 ≠ 0 ∧
    ((clearBufferJunk '\n' ['a', '\n']).1 = -1 ∨ (clearBufferJunk '\n' ['a', '\n']).1 = 0 ∨
      (clearBufferJunk '\n' ['a', '\n']).1 = 1) :=
  ⟨(claim10_clearBufferJunk_codes '\n' ['a', '\n']).2 rfl,
    (claim10_clearBufferJunk_codes '\n' ['a', '\n']).1⟩

lemma readTime_code_cases (t : ClockTime) :
    ((t.hour > 0 ∧ t.hour < 13 ∧ t.minute > -1 ∧ t.minute < 60 ∧
        (normalizeMeridiem t.meridiem = 'a' ∨ normalizeMeridiem t.meridiem = 'p')) ∧
      (readTime t).1 = 0) ∨
    (¬ (t.hour > 0 ∧ t.hour < 13 ∧ t.minute > -1 ∧ t.minute < 60 ∧
        (normalizeMeridiem t.meridiem = 'a' ∨ normalizeMeridiem t.meridiem = 'p')) ∧
      (readTime t).1 = -1) := by
  by_cases hv : t.hour > 0 ∧ t.hour < 13 ∧ t.minute > -1 ∧ t.minute < 60 ∧
      (normalizeMeridiem t.meridiem = 'a' ∨ normalizeMeridiem t.meridiem = 'p')
  · exact Or.inl ⟨hv, by simp only [readTime, if_pos hv]⟩
  · exact Or.inr ⟨hv, by simp only [readTime, if_neg hv]⟩

lemma validScan_iff (t : ClockTime) :
    validScan t ↔ (t.hour > 0 ∧ t.hour < 13 ∧ t.minute > -1 ∧ t.minute < 60 ∧
      (normalizeMeridiem t.meridiem = 'a' ∨ normalizeMeridiem t.meridiem = 'p')) := by
  rcases readTime_code_cases t with ⟨hv, hc⟩ | ⟨hv, hc⟩ <;>
    unfold validScan <;> rw [hc] <;> simp [hv]

lemma validScan_validTime (t : ClockTime) (h : validScan t) : validTime (normTime t) := by
  obtain ⟨a1, a2, a3, a4, a5⟩ := (validScan_iff t).mp h
  refine ⟨?_, ?_, ?_, ?_, ?_⟩ <;> simp only [normTime] <;> first | omega | exact a5

lemma accumPair_bounds (a b : Int) (e : Entry)
    (hs : validScan e.startT) (he : validScan e.endT)
    (h1 : 0 ≤ a) (h2 : 0 ≤ b) (h3 : b ≤ 59) :
    0 ≤ (accumPair (a, b) e).1 ∧ 0 ≤ (accumPair (a, b) e).2 ∧ (accumPair (a, b) e).2 ≤ 59 ∧
    60 * (accumPair (a, b) e).1 + (accumPair (a, b) e).2 =
      60 * a + b + (60 * (elapsed (normTime e.startT) (normTime e.endT)).1 +
        (elapsed (normTime e.startT) (normTime e.endT)).2) := by
  obtain ⟨_, d1, d2, d3, d4⟩ := elapsed_eq (normTime e.startT) (normTime e.endT)
    (validScan_validTime _ hs) (validScan_validTime _ he)
  simp only [accumPair, accumulate]
  split_ifs <;> refine ⟨by omega, by omega, by omega, by omega⟩

lemma accumPairs_loop (es : List Entry) :
    ∀ a b : Int, (∀ p ∈ es, validScan p.startT ∧ validScan p.endT) →
      0 ≤ a → 0 ≤ b → b ≤ 59 →
      0 ≤ (es.foldl accumPair (a, b)).1 ∧ 0 ≤ (es.foldl accumPair (a, b)).2 ∧
      (es.foldl accumPair (a, b)).2 ≤ 59 ∧
      60 * (es.foldl accumPair (a, b)).1 + (es.foldl accumPair (a, b)).2 =
        60 * a + b + sumDurations es := by
  induction es with
  | nil =>
    intro a b _ h1 h2 h3
    exact ⟨h1, h2, h3, by simp [sumDurations]⟩
  | cons e rest ih =>
    intro a b hall h1 h2 h3
    have hb := accumPair_bounds a b e (hall e (by simp)).1 (hall e (by simp)).2 h1 h2 h3
    have hih := ih (accumPair (a, b) e).1 (accumPair (a, b) e).2
      (fun p hp => hall p (List.mem_cons_of_mem _ hp)) hb.1 hb.2.1 hb.2.2.1
    rw [Prod.mk.eta] at hih
    simp only [List.foldl_cons, sumDurations]
    obtain ⟨k1, k2, k3, k4⟩ := hih
    obtain ⟨-, -, -, j4⟩ := hb
    exact ⟨k1, k2, k3, by omega⟩

/-- C7: starting from totalHours = 0 and totalMinutes = 0, accumulating any
list of successfully parsed pairs keeps the day summary normalized —
totalMinutes in [0,59] and totalHours ≥ 0 at every step — and the total in
minutes equals the sum of the accumulated pair durations; accumulating the
durations 1h40m and 0h45m yields totalHours = 2 and totalMinutes = 25. -/
theorem claim7_accumulation_invariant (es : List Entry)
    (h : ∀ p ∈ es, validScan p.startT ∧ validScan p.endT) :
    (0 ≤ (accumPairs es).1 ∧ 0 ≤ (accumPairs es).2 ∧ (accumPairs es).2 ≤ 59 ∧
      60 * (accumPairs es).1 + (accumPairs es).2 = sumDurations es) ∧
    accumulate 1 40 0 45 = (2, 25) := by
  have hl := accumPairs_loop es 0 0 h le_rfl le_rfl (by norm_num)
  unfold accumPairs
  exact ⟨⟨hl.1, hl.2.1, hl.2.2.1, by have := hl.2.2.2; omega⟩, by decide⟩

/-- Witness for C7 on a two-pair day (9:00am-1:00pm then 2:00pm-4:30pm). -/
theorem claim7_accumulation_invariant_witness :
    (∀ p ∈ [Entry.mk ⟨9, 0, 'a'⟩ ⟨1, 0, 'p'⟩ SepKind.comma,
        Entry.mk ⟨2, 0, 'p'⟩ ⟨4, 30, 'p'⟩ SepKind.line],
      validScan p.startT ∧ validScan p.endT) ∧
    accumulate 1 40 0 45 = (2, 25) :=
  ⟨by decide,
    (claim7_accumulation_invariant [Entry.mk ⟨9, 0, 'a'⟩ ⟨1, 0, 'p'⟩ SepKind.comma,
      Entry.mk ⟨2, 0, 'p'⟩ ⟨4, 30, 'p'⟩ SepKind.line] (by decide)).2⟩

lemma readTimesForDay_abort_head (e : Entry) (rest : List Entry) (th tm : Int)
    (hbad : (readTime e.startT).1 = -1 ∨ (readTime e.endT).1 = -1) :
    readTimesForDay (e :: rest) th tm = some (-1, th, tm) := by
  rcases hbad with hb | hb
  · simp [readTimesForDay, hb]
  · by_cases hsx : (readTime e.startT).1 = -1
    · simp [readTimesForDay, hsx]
    · simp [readTimesForDay, hsx, hb]

lemma readTimesForDay_sentinel_head (e : Entry) (rest : List Entry) (th tm : Int)
    (hs : validScan e.startT) (he : validScan e.endT) (hsent : isSentinel e) :
    readTimesForDay (e :: rest) th tm = some (0, th, tm) := by
  have hs' : (readTime e.startT).1 = 0 := hs
  have he' : (readTime e.endT).1 = 0 := he
  have hsent' : (normTime e.startT).hour = (normTime e.endT).hour ∧
      (normTime e.startT).minute = (normTime e.endT).minute ∧
      (normTime e.startT).meridiem = (normTime e.endT).meridiem := hsent
  simp [readTimesForDay, hs', he', hsent']

lemma readTimesForDay_good_step (e : Entry) (rest : List Entry) (th tm : Int)
    (hg : goodPair e) :
    readTimesForDay (e :: rest) th tm =
      readTimesForDay rest (accumPair (th, tm) e).1 (accumPair (th, tm) e).2 := by
  obtain ⟨hs, he, hns, hsep⟩ := hg
  have hs' : (readTime e.startT).1 = 0 := hs
  have he' : (readTime e.endT).1 = 0 := he
  have hns' : ¬ ((normTime e.startT).hour = (normTime e.endT).hour ∧
      (normTime e.startT).minute = (normTime e.endT).minute ∧
      (normTime e.startT).meridiem = (normTime e.endT).meridiem) := hns
  simp [readTimesForDay, hs', he', hns', hsep, accumPair]

lemma readTimesForDay_last_head (e : Entry) (rest : List Entry) (th tm : Int)
    (hs : validScan e.startT) (he : validScan e.endT) (hns : ¬ isSentinel e)
    (hsep : e.sep = SepKind.line ∨ e.sep = SepKind.ended) :
    readTimesForDay (e :: rest) th tm =
      some (1, (accumPair (th, tm) e).1, (accumPair (th, tm) e).2) := by
  have hs' : (readTime e.startT).1 = 0 := hs
  have he' : (readTime e.endT).1 = 0 := he
  have hns' : ¬ ((normTime e.startT).hour = (normTime e.endT).hour ∧
      (normTime e.startT).minute = (normTime e.endT).minute ∧
      (normTime e.startT).meridiem = (normTime e.endT).meridiem) := hns
  rcases hsep with hsep | hsep <;> simp [readTimesForDay, hs', he', hns', hsep, accumPair]

lemma readTimesForDay_append (pre : List Entry) (l : List Entry)
    (hpre : ∀ p ∈ pre, goodPair p) :
    ∀ th tm : Int, readTimesForDay (pre ++ l) th tm =
      readTimesForDay l (pre.foldl accumPair (th, tm)).1 (pre.foldl accumPair (th, tm)).2 := by
  induction pre with
  | nil => intro th tm; simp
  | cons p pre' ih =>
    intro th tm
    rw [List.cons_append, readTimesForDay_good_step p (pre' ++ l) th tm (hpre p (by simp)),
      ih (fun q hq => hpre q (List.mem_cons_of_mem _ hq))]
    simp only [List.foldl_cons, Prod.mk.eta]

/-- C4: whenever a successfully parsed pair has identical start and end
(compared on the normalized 12-hour form, before the military conversion),
`readTimesForDay` returns the stop outcome 0 immediately with only the
previously accumulated totals — the sentinel pair's duration is never
computed or added — and the outer loop of `main` then finalizes that day
and falls through to `return 0`, regardless of the pair's position in the
line, of the rest of the line, and of any further queued days. -/
theorem claim4_sentinel_stops (pre rest : List Entry) (e : Entry) (more : List (List Entry))
    (hpre : ∀ p ∈ pre, goodPair p)
    (hs : validScan e.startT) (he : validScan e.endT) (hsent : isSentinel e) :
    readTimesForDay (pre ++ e :: rest) 0 0 =
      some (0, (accumPairs pre).1, (accumPairs pre).2) ∧
    mainLoop ((pre ++ e :: rest) :: more) =
      some (0, [((accumPairs pre).1, (accumPairs pre).2)]) := by
  unfold accumPairs
  have h1 : readTimesForDay (pre ++ e :: rest) 0 0 =
      some (0, (pre.foldl accumPair (0, 0)).1, (pre.foldl accumPair (0, 0)).2) := by
    rw [readTimesForDay_append pre (e :: rest) hpre 0 0]
    exact readTimesForDay_sentinel_head e rest _ _ hs he hsent
  refine ⟨h1, ?_⟩
  simp [mainLoop, h1]

/-- Witness for C4: a valid 9:00am-1:00pm pair, then the sentinel
1:00Pm-1:00pm, then a junk pair and a queued second day. -/
theorem claim4_sentinel_stops_witness :
    (∀ p ∈ [Entry.mk ⟨9, 0, 'a'⟩ ⟨1, 0, 'p'⟩ SepKind.comma], goodPair p) ∧
    isSentinel (Entry.mk ⟨1, 0, 'P'⟩ ⟨1, 0, 'p'⟩ SepKind.line) ∧
    mainLoop (([Entry.mk ⟨9, 0, 'a'⟩ ⟨1, 0, 'p'⟩ SepKind.comma] ++
        Entry.mk ⟨1, 0, 'P'⟩ ⟨1, 0, 'p'⟩ SepKind.line ::
          [Entry.mk ⟨7, 0, 'a'⟩ ⟨8, 0, 'a'⟩ SepKind.line]) ::
      [[Entry.mk ⟨2, 0, 'p'⟩ ⟨3, 0, 'p'⟩ SepKind.line]]) =
      some (0, [((accumPairs [Entry.mk ⟨9, 0, 'a'⟩ ⟨1, 0, 'p'⟩ SepKind.comma]).1,
        (accumPairs [Entry.mk ⟨9, 0, 'a'⟩ ⟨1, 0, 'p'⟩ SepKind.comma]).2)]) :=
  ⟨by decide, by decide,
    (claim4_sentinel_stops [Entry.mk ⟨9, 0, 'a'⟩ ⟨1, 0, 'p'⟩ SepKind.comma]
      [Entry.mk ⟨7, 0, 'a'⟩ ⟨8, 0, 'a'⟩ SepKind.line]
      (Entry.mk ⟨1, 0, 'P'⟩ ⟨1, 0, 'p'⟩ SepKind.line)
      [[Entry.mk ⟨2, 0, 'p'⟩ ⟨3, 0, 'p'⟩ SepKind.line]]
      (by decide) (by decide) (by decide) (by decide)).2⟩

/-- C5: if either time token of a reached pair fails validation, the day
session returns the abort outcome -1 (the rest of the line is discarded:
the result does not depend on it), the aborted day contributes nothing to
the program's finalized day totals, and the next day session starts again
from totalHours = 0 and totalMinutes = 0 (`mainLoop` re-enters
`readTimesForDay` with fresh zero totals by construction). -/
theorem claim5_abort_discards (pre rest : List Entry) (e : Entry) (more : List (List Entry))
    (hpre : ∀ p ∈ pre, goodPair p)
    (hbad : (readTime e.startT).1 = -1 ∨ (readTime e.endT).1 = -1) :
    readTimesForDay (pre ++ e :: rest) 0 0 =
      some (-1, (accumPairs pre).1, (accumPairs pre).2) ∧
    mainLoop ((pre ++ e :: rest) :: more) = mainLoop more := by
  unfold accumPairs
  have h1 : readTimesForDay (pre ++ e :: rest) 0 0 =
      some (-1, (pre.foldl accumPair (0, 0)).1, (pre.foldl accumPair (0, 0)).2) := by
    rw [readTimesForDay_append pre (e :: rest) hpre 0 0]
    exact readTimesForDay_abort_head e rest _ _ hbad
  refine ⟨h1, ?_⟩
  simp [mainLoop, h1]

/-- Witness for C5: a valid 9:00am-1:00pm pair, then the malformed pair
13:00pm-2:00pm, then a junk pair; the queued next day is processed as if
the aborted line never happened. -/
theorem claim5_abort_discards_witness :
    (∀ p ∈ [Entry.mk ⟨9, 0, 'a'⟩ ⟨1, 0, 'p'⟩ SepKind.comma], goodPair p) ∧
    (readTime (⟨13, 0, 'p'⟩ : ClockTime)).1 = -1 ∧
    mainLoop (([Entry.mk ⟨9, 0, 'a'⟩ ⟨1, 0, 'p'⟩ SepKind.comma] ++
        Entry.mk ⟨13, 0, 'p'⟩ ⟨2, 0, 'p'⟩ SepKind.comma ::
          [Entry.mk ⟨7, 0, 'a'⟩ ⟨8, 0, 'a'⟩ SepKind.line]) ::
      [[Entry.mk ⟨2, 0, 'p'⟩ ⟨2, 0, 'p'⟩ SepKind.line]]) =
      mainLoop [[Entry.mk ⟨2, 0, 'p'⟩ ⟨2, 0, 'p'⟩ SepKind.line]] :=
  ⟨by decide, by decide,
    (claim5_abort_discards [Entry.mk ⟨9, 0, 'a'⟩ ⟨1, 0, 'p'⟩ SepKind.comma]
      [Entry.mk ⟨7, 0, 'a'⟩ ⟨8, 0, 'a'⟩ SepKind.line]
      (Entry.mk ⟨13, 0, 'p'⟩ ⟨2, 0, 'p'⟩ SepKind.comma)
      [[Entry.mk ⟨2, 0, 'p'⟩ ⟨2, 0, 'p'⟩ SepKind.line]]
      (by decide) (Or.inl (by decide))).2⟩

/-- C8 counterexample: with the whole input stream being the single valid
pair 9:00am-5:00pm followed by end-of-input, `readTimesForDay` ends the day
with outcome 1 (all pairs read), not the stop outcome 0, and the modelled
`main` loop never reaches `return 0`: it consumes the one day and then
demands another day from the exhausted stream (`mainLoop ... = none`), so
the program does not terminate with status 0 at end-of-input. -/
theorem claim8_eof_counterexample :
    readTimesForDay [Entry.mk ⟨9, 0, 'a'⟩ ⟨5, 0, 'p'⟩ SepKind.ended] 0 0 = some (1, 8, 0) ∧
    (1 : Int) ≠ 0 ∧
    mainLoop [[Entry.mk ⟨9, 0, 'a'⟩ ⟨5, 0, 'p'⟩ SepKind.ended]] = none := by decide

/-- C8 amended: when end-of-input is reached between pairs or at a line
boundary, the day loop of `readTimesForDay` ends gracefully with outcome 1
(all pairs read, totals accumulated), but the outer program does not
terminate: `main` finalizes that day and keeps prompting, so a run reaches
exit status 0 only through the identical start/end sentinel, and an input
that simply ends leaves the loop demanding more input (modelled as `none`).
(End-of-input in the middle of an entry makes the C code validate variables
`scanf_s` never assigned, which is not modelled.) -/
theorem claim8_amended_eof_behavior (pre : List Entry) (e : Entry) (more : List (List Entry))
    (hpre : ∀ p ∈ pre, goodPair p)
    (hs : validScan e.startT) (he : validScan e.endT) (hns : ¬ isSentinel e)
    (hsep : e.sep = SepKind.ended) :
    readTimesForDay (pre ++ [e]) 0 0 =
      some (1, (accumPairs (pre ++ [e])).1, (accumPairs (pre ++ [e])).2) ∧
    (∀ st outs, mainLoop more = some (st, outs) →
      mainLoop ((pre ++ [e]) :: more) =
        some (st, ((accumPairs (pre ++ [e])).1, (accumPairs (pre ++ [e])).2) :: outs)) ∧
    (mainLoop more = none → mainLoop ((pre ++ [e]) :: more) = none) ∧
    mainLoop [pre ++ [e]] = none := by
  unfold accumPairs
  have h1 : readTimesForDay (pre ++ [e]) 0 0 =
      some (1, ((pre ++ [e]).foldl accumPair (0, 0)).1,
        ((pre ++ [e]).foldl accumPair (0, 0)).2) := by
    rw [readTimesForDay_append pre [e] hpre 0 0,
      readTimesForDay_last_head e [] _ _ hs he hns (Or.inr hsep)]
    simp only [List.foldl_append, List.foldl_cons, List.foldl_nil, Prod.mk.eta]
  refine ⟨h1, ?_, ?_, ?_⟩
  · intro st outs hm
    simp [mainLoop, h1, hm]
  · intro hm
    simp [mainLoop, h1, hm]
  · simp [mainLoop, h1]

/-- Witness for C8 amended: one valid prior pair and a final pair cut off by
end-of-input, with no further days queued. -/
theorem claim8_amended_eof_behavior_witness :
    (∀ p ∈ [Entry.mk ⟨9, 0, 'a'⟩ ⟨1, 0, 'p'⟩ SepKind.comma], goodPair p) ∧
    ¬ isSentinel (Entry.mk ⟨2, 0, 'p'⟩ ⟨4, 30, 'p'⟩ SepKind.ended) ∧
    mainLoop [[Entry.mk ⟨9, 0, 'a'⟩ ⟨1, 0, 'p'⟩ SepKind.comma] ++
      [Entry.mk ⟨2, 0, 'p'⟩ ⟨4, 30, 'p'⟩ SepKind.ended]] = none :=
  ⟨by decide, by decide,
    (claim8_amended_eof_behavior [Entry.mk ⟨9, 0, 'a'⟩ ⟨1, 0, 'p'⟩ SepKind.comma]
      (Entry.mk ⟨2, 0, 'p'⟩ ⟨4, 30, 'p'⟩ SepKind.ended) []
      (by decide) (by decide) (by decide) (by decide) (by decide)).2.2.2⟩

/-- Witness for C6 at the malformed time 13:00pm. -/
theorem claim6_readTime_errors_witness :
    TimeError.hourTooBig ∈ (readTime ⟨13, 0, 'p'⟩).2 ↔ 13 ≤ (⟨13, 0, 'p'⟩ : ClockTime).hour :=
  (claim6_readTime_errors ⟨13, 0, 'p'⟩).2.2.2.1
